import Mathlib

/-!
Shallow embedding of `src/descriptors.py` (module `descriptors`).

The module defines three descriptor classes sharing the abstract base
`_ExpressionDescriptor`:

* `OperableProperty` — a stored per-instance attribute.  Its value lives on
  the owning instance under the derived key `private_name = "_" + name`.
* `Result` — a deferred operation over operands (`operation`, `*values`);
  evaluated on every read, never stored.
* `Alias` — forwards get/set/delete along a dotted attribute path.

Modelling choices:

* An owner instance's attribute dictionary is an association list
  `Owner V = List (String × V)`; `getattrS`/`setattrS`/`delattrS` model the
  host `getattr`/`setattr`/`delattr` on such a dictionary.
* Host-raised errors are values of `PyErr`; `Except PyErr` models raising.
  The host message of a missing-attribute error is modelled by `attrMsg`
  (the concrete CPython text minus the class-name cosmetics); `str.replace`
  is modelled by `pyReplace` on `List Char` with CPython's left-to-right,
  non-overlapping semantics.
* `Result.operation` is a pure function `List V → Option V`; `none` models
  the host rejecting the call (e.g. an arity `TypeError`).  The operator
  overloads of `_ExpressionDescriptor` always construct binary operations
  via `liftBin` and empty `kwargs`, so the embedding specialises to the
  empty-`kwargs` case.
* `__set_name__` stores the declared attribute name on the descriptor; the
  embedding passes that bound `name` explicitly to the operations that read
  `self.name` (`OperableProperty.{get,set,delete}`, `Result.{set,delete}`).
-/

/-- A raised host exception: an `AttributeError` with its message and its
`__cause__` (set by `raise ... from e`), or a `TypeError`. -/
inductive PyErr where
  | attrError (msg : List Char) (cause : Option PyErr)
  | typeError (msg : List Char)

/-- Model of the host message of the `AttributeError` raised by `getattr`
when attribute `k` is missing (CPython: `'C' object has no attribute 'k'`,
with the quoting and class-name cosmetics dropped). -/
def attrMsg (k : String) : List Char :=
  ("object has no attribute ").data ++ k.data

/-- Model of CPython `str.replace(pat, rep)` for non-empty `pat`: scan left
to right, replacing non-overlapping occurrences of `pat` by `rep`.
(For `pat = []` CPython interleaves `rep` everywhere; the code under study
only ever calls this with the non-empty `private_name` as pattern.) -/
def pyReplace (pat rep : List Char) : List Char → List Char
  | [] => []
  | c :: rest =>
    if pat.isPrefixOf (c :: rest) && !pat.isEmpty then
      rep ++ pyReplace pat rep (List.drop (pat.length - 1) rest)
    else
      c :: pyReplace pat rep rest
termination_by s => s.length
decreasing_by
  · simp [List.length_drop]; omega
  · simp

/-- Look up a key in an attribute dictionary (association list). -/
def lookupA {β : Type} (st : List (String × β)) (k : String) : Option β :=
  match st with
  | [] => none
  | (k2, v) :: rest => if k2 = k then some v else lookupA rest k

/-- Drop every binding of a key from an attribute dictionary (a dictionary
holds at most one, so this is plain unbinding). -/
def removeKey {β : Type} (st : List (String × β)) (k : String) :
    List (String × β) :=
  match st with
  | [] => []
  | (k2, v) :: rest =>
    if k2 = k then removeKey rest k else (k2, v) :: removeKey rest k

/-- An owner instance's attribute dictionary: keys are attribute names,
values are the stored objects. -/
abbrev Owner (V : Type) := List (String × V)

/-- `getattr(owner, k)` on the attribute dictionary, as an `Option`. -/
def getattrS {V : Type} (st : Owner V) (k : String) : Option V :=
  lookupA st k

/-- `setattr(owner, k, v)`: (re)bind `k` to `v` in the dictionary. -/
def setattrS {V : Type} (st : Owner V) (k : String) (v : V) : Owner V :=
  (k, v) :: removeKey st k

/-- `delattr(owner, k)`: remove the binding of `k`; raises a host
`AttributeError` if `k` is unbound. -/
def delattrS {V : Type} (st : Owner V) (k : String) : Except PyErr (Owner V) :=
  match getattrS st k with
  | none => .error (.attrError (attrMsg k) none)
  | some _ => .ok (removeKey st k)

mutual
/-- A bound `_ExpressionDescriptor` of the stored kinds: an
`OperableProperty` (carrying its declared `name`) or a `Result`
(carrying `operation` and `values`).  `Alias` is embedded separately
because its owner is an object tree rather than a flat slot dictionary. -/
inductive Desc (V : Type) where
  | prop (name : String)
  | result (op : List V → Option V) (values : List (Operand V))

/-- One element of `Result.values`: either a plain literal or a nested
descriptor (`isinstance(v, _ExpressionDescriptor)` in the source). -/
inductive Operand (V : Type) where
  | lit (v : V)
  | desc (d : Desc V)
end

/-- `OperableProperty.__set_name__`: `self.private_name = "_" + name`. -/
def OperableProperty.private_name (name : String) : String := "_" ++ name

/-- `OperableProperty.__get__` with a concrete owner: read the private slot;
on a missing slot, re-raise with the public `name` substituted for the
private key in the message, keeping the original error as the cause. -/
def OperableProperty.getOwned {V : Type} (name : String) (st : Owner V) :
    Except PyErr V :=
  match getattrS st (OperableProperty.private_name name) with
  | some a => .ok a
  | none =>
    .error (.attrError
      (pyReplace (OperableProperty.private_name name).data name.data
        (attrMsg (OperableProperty.private_name name)))
      (some (.attrError (attrMsg (OperableProperty.private_name name)) none)))

/-- `OperableProperty.__set__`: unconditionally write the private slot. -/
def OperableProperty.set {V : Type} (name : String) (st : Owner V) (val : V) :
    Owner V :=
  setattrS st (OperableProperty.private_name name) val

/-- `OperableProperty.__delete__`: `delattr` on the private slot. -/
def OperableProperty.delete {V : Type} (name : String) (st : Owner V) :
    Except PyErr (Owner V) :=
  delattrS st (OperableProperty.private_name name)

mutual
/-- `__get__` with a concrete owner, for the two slot-based descriptor
kinds.  A `Result` resolves its stored operands (`resolveValues`) and
applies `operation`; `none` from the operation models the host rejecting
the call (e.g. an arity `TypeError`). -/
def Desc.getOwned {V : Type} : Desc V → Owner V → Except PyErr V
  | .prop n, st => OperableProperty.getOwned n st
  | .result op vals, st =>
    match resolveValues vals st with
    | .error e => .error e
    | .ok rs =>
      match op rs with
      | some v => .ok v
      | none => .error (.typeError ("operation rejected its arguments").data)

/-- The list comprehension in `Result.__get__`: resolve each operand in
order against the same owner — recursively for descriptor operands,
as-is for literals.  The first raised error propagates. -/
def resolveValues {V : Type} : List (Operand V) → Owner V → Except PyErr (List V)
  | [], _ => .ok []
  | .lit v :: rest, st =>
    match resolveValues rest st with
    | .error e => .error e
    | .ok rs => .ok (v :: rs)
  | .desc d :: rest, st =>
    match Desc.getOwned d st with
    | .error e => .error e
    | .ok x =>
      match resolveValues rest st with
      | .error e => .error e
      | .ok rs => .ok (x :: rs)
end

/-- Resolution of a single operand of `Result.values` against a concrete
owner: the body of the list comprehension in `Result.__get__`. -/
def resolveOperand {V : Type} (st : Owner V) : Operand V → Except PyErr V
  | .lit v => .ok v
  | .desc d => Desc.getOwned d st

/-- Applying `self.operation(*values)` to the resolved operand list. -/
def applyCall {V : Type} (op : List V → Option V) (rs : List V) :
    Except PyErr V :=
  match op rs with
  | some v => .ok v
  | none => .error (.typeError ("operation rejected its arguments").data)

/-- `__get__` as dispatched by the attribute protocol: with no concrete
owner (`owner is None`, i.e. class-level access) the descriptor itself is
returned; with a concrete owner the resolved value is returned. -/
def Desc.get {V : Type} (d : Desc V) (owner : Option (Owner V)) :
    Except PyErr (Operand V) :=
  match owner with
  | none => .ok (.desc d)
  | some st => (Desc.getOwned d st).map Operand.lit

/-- Wrapping a binary host operator for use as `Result.operation`:
defined exactly on two-element argument lists (`operator.mul` etc. are
binary; any other arity is a host `TypeError`). -/
def liftBin {V : Type} (f : V → V → V) : List V → Option V
  | [a, b] => some (f a b)
  | _ => none

/-- `_ExpressionDescriptor.__mul__`: `Result(operator.mul, self, other)`. -/
def Desc.opMul {V : Type} [Mul V] (self : Desc V) (other : Operand V) : Desc V :=
  .result (liftBin (· * ·)) [.desc self, other]

/-- `_ExpressionDescriptor.__rmul__`: `Result(operator.mul, other, self)`. -/
def Desc.opRMul {V : Type} [Mul V] (self : Desc V) (other : Operand V) : Desc V :=
  .result (liftBin (· * ·)) [other, .desc self]

/-- `_ExpressionDescriptor.__truediv__`: `Result(operator.truediv, self, other)`. -/
def Desc.opDiv {V : Type} [Div V] (self : Desc V) (other : Operand V) : Desc V :=
  .result (liftBin (· / ·)) [.desc self, other]

/-- `_ExpressionDescriptor.__rtruediv__`: `Result(operator.truediv, other, self)`. -/
def Desc.opRDiv {V : Type} [Div V] (self : Desc V) (other : Operand V) : Desc V :=
  .result (liftBin (· / ·)) [other, .desc self]

/-- `_ExpressionDescriptor.__add__`: `Result(operator.add, self, other)`. -/
def Desc.opAdd {V : Type} [Add V] (self : Desc V) (other : Operand V) : Desc V :=
  .result (liftBin (· + ·)) [.desc self, other]

/-- `_ExpressionDescriptor.__radd__`: `Result(operator.add, other, self)`. -/
def Desc.opRAdd {V : Type} [Add V] (self : Desc V) (other : Operand V) : Desc V :=
  .result (liftBin (· + ·)) [other, .desc self]

/-- `_ExpressionDescriptor.__sub__`: `Result(operator.sub, self, other)`. -/
def Desc.opSub {V : Type} [Sub V] (self : Desc V) (other : Operand V) : Desc V :=
  .result (liftBin (· - ·)) [.desc self, other]

/-- `_ExpressionDescriptor.__rsub__`: `Result(operator.sub, other, self)`. -/
def Desc.opRSub {V : Type} [Sub V] (self : Desc V) (other : Operand V) : Desc V :=
  .result (liftBin (· - ·)) [other, .desc self]

/-- `Result.__set__`: unconditionally raise, naming the bound attribute. -/
def Result.set {V : Type} (name : String) (owner : Owner V) (value : V) :
    Except PyErr (Owner V) :=
  .error (.attrError
    (name.data ++ (" is the result of an operation and is not writable").data)
    none)

/-- `Result.__delete__`: unconditionally raise, naming the bound attribute. -/
def Result.delete {V : Type} (name : String) (owner : Owner V) :
    Except PyErr (Owner V) :=
  .error (.attrError
    (name.data ++ (" is the result of an operation and is not deletable").data)
    none)

mutual
/-- `__get__` with a concrete owner, with the owner's attribute dictionary
threaded explicitly through every host attribute access.  This makes the
state effect of an evaluation visible: the second component is the
dictionary after the read.  The slot branch performs only `getattr`, which
leaves the dictionary unchanged. -/
def Desc.getSt {V : Type} : Desc V → Owner V → Except PyErr V × Owner V
  | .prop n, st => (OperableProperty.getOwned n st, st)
  | .result op vals, st =>
    match resolveValuesSt vals st with
    | (.error e, st2) => (.error e, st2)
    | (.ok rs, st2) =>
      match op rs with
      | some v => (.ok v, st2)
      | none => (.error (.typeError ("operation rejected its arguments").data), st2)

/-- The operand-resolution comprehension of `Result.__get__` with the
owner dictionary threaded through each recursive `__get__`. -/
def resolveValuesSt {V : Type} :
    List (Operand V) → Owner V → Except PyErr (List V) × Owner V
  | [], st => (.ok [], st)
  | .lit v :: rest, st =>
    match resolveValuesSt rest st with
    | (.error e, st2) => (.error e, st2)
    | (.ok rs, st2) => (.ok (v :: rs), st2)
  | .desc d :: rest, st =>
    match Desc.getSt d st with
    | (.error e, st2) => (.error e, st2)
    | (.ok x, st2) =>
      match resolveValuesSt rest st2 with
      | (.error e, st3) => (.error e, st3)
      | (.ok rs, st3) => (.ok (x :: rs), st3)
end

/-!  The `Alias` embedding.  An alias forwards attribute accesses along a
dotted path, so its owner is modelled as a tree of host objects: a node is
either a plain (attribute-less) value or an object with an attribute
dictionary.  The in-place `setattr`/`delattr` on the object reached by the
path walk is rendered functionally by rebuilding the tree along the path
(reference sharing inside the tree is outside the model). -/

/-- A host object as seen through attribute access: a plain value, or an
object carrying an attribute dictionary whose values are again objects. -/
inductive PyObj (V : Type) where
  | val (v : V)
  | obj (attrs : List (String × PyObj V))

/-- `getattr(o, k)` on an object tree; missing attributes (and any
attribute on a plain value) raise the host `AttributeError`. -/
def PyObj.getattrO {V : Type} : PyObj V → String → Except PyErr (PyObj V)
  | .val _, k => .error (.attrError (attrMsg k) none)
  | .obj attrs, k =>
    match lookupA attrs k with
    | some o => .ok o
    | none => .error (.attrError (attrMsg k) none)

/-- `setattr(o, k, v)` on an object tree node: rebind `k`; plain values
reject attribute assignment. -/
def PyObj.setattrO {V : Type} : PyObj V → String → PyObj V → Except PyErr (PyObj V)
  | .val _, k, _ => .error (.attrError (attrMsg k) none)
  | .obj attrs, k, v => .ok (.obj ((k, v) :: removeKey attrs k))

/-- `delattr(o, k)` on an object tree node: remove the binding of `k`;
raises if `k` is unbound (or the node is a plain value). -/
def PyObj.delattrO {V : Type} : PyObj V → String → Except PyErr (PyObj V)
  | .val _, k => .error (.attrError (attrMsg k) none)
  | .obj attrs, k =>
    match lookupA attrs k with
    | none => .error (.attrError (attrMsg k) none)
    | some _ => .ok (.obj (removeKey attrs k))

/-- Model of CPython `str.split(sep)` for a single-character separator:
split on every occurrence, keeping empty pieces (`"" .split "." = [""]`). -/
def pySplitChars (sep : Char) : List Char → List (List Char)
  | [] => [[]]
  | c :: rest =>
    match pySplitChars sep rest with
    | [] => [[]]
    | r :: rs => if c = sep then [] :: r :: rs else (c :: r) :: rs

/-- `attribute_path.split(".")` as a list of `String` segments. -/
def pySplit (sep : Char) (s : String) : List String :=
  (pySplitChars sep s.data).map (fun l => String.mk l)

/-- An `Alias` descriptor, identified by its dotted `attribute_path`
(constructor argument; `names_list` and `attribute_name` are derived). -/
structure Alias where
  attribute_path : String

/-- `self.names_list = attribute_path.split(".")`. -/
def Alias.names_list (a : Alias) : List String :=
  pySplit ('.') a.attribute_path

/-- `self.attribute_name = names_list[-1]` (`split` never returns an empty
list, so the default of `getLastD` is never taken). -/
def Alias.attribute_name (a : Alias) : String :=
  (Alias.names_list a).getLastD ""

/-- The loop of `Alias._get_last_object`: fold `getattr` over the
traversal segments, starting at the owner. -/
def walkPath {V : Type} : List String → PyObj V → Except PyErr (PyObj V)
  | [], o => .ok o
  | n :: rest, o =>
    match PyObj.getattrO o n with
    | .error e => .error e
    | .ok o2 => walkPath rest o2

/-- `Alias._get_last_object(owner)`: walk all segments but the last. -/
def Alias.getLastObject {V : Type} (a : Alias) (owner : PyObj V) :
    Except PyErr (PyObj V) :=
  walkPath (Alias.names_list a).dropLast owner

/-- `Alias.__get__` with a concrete owner: walk to the last object, read
the terminal attribute; if that read raises an `AttributeError`, re-raise
with the note appended to the message and the original error as cause. -/
def Alias.getOwned {V : Type} (a : Alias) (owner : PyObj V) :
    Except PyErr (PyObj V) :=
  match Alias.getLastObject a owner with
  | .error e => .error e
  | .ok obj =>
    match PyObj.getattrO obj (Alias.attribute_name a) with
    | .ok v => .ok v
    | .error (.attrError m c) =>
      .error (.attrError (m ++ (" (accessed from alias)").data)
        (some (.attrError m c)))
    | .error e => .error e

/-- `Alias.__get__` as dispatched by the attribute protocol: class-level
access (`owner is None`) returns the descriptor itself. -/
def Alias.get {V : Type} (a : Alias) (owner : Option (PyObj V)) :
    Except PyErr (Alias ⊕ PyObj V) :=
  match owner with
  | none => .ok (.inl a)
  | some o => (Alias.getOwned a o).map Sum.inr

/-- `setattr` at the end of a path: the functional rendering of
`setattr(self._get_last_object(owner), k, v)` — walk the traversal
segments, write the terminal attribute on the reached object, and rebuild
the tree along the path. -/
def setAtPath {V : Type} : PyObj V → List String → String → PyObj V →
    Except PyErr (PyObj V)
  | o, [], k, v => PyObj.setattrO o k v
  | o, n :: rest, k, v =>
    match PyObj.getattrO o n with
    | .error e => .error e
    | .ok child =>
      match setAtPath child rest k v with
      | .error e => .error e
      | .ok child2 => PyObj.setattrO o n child2

/-- `delattr` at the end of a path: the functional rendering of
`delattr(self._get_last_object(owner), k)`. -/
def delAtPath {V : Type} : PyObj V → List String → String →
    Except PyErr (PyObj V)
  | o, [], k => PyObj.delattrO o k
  | o, n :: rest, k =>
    match PyObj.getattrO o n with
    | .error e => .error e
    | .ok child =>
      match delAtPath child rest k with
      | .error e => .error e
      | .ok child2 => PyObj.setattrO o n child2

/-- `Alias.__set__(owner, value)`: walk the traversal segments and write
the terminal attribute on the reached object. -/
def Alias.set {V : Type} (a : Alias) (owner : PyObj V) (value : PyObj V) :
    Except PyErr (PyObj V) :=
  setAtPath owner (Alias.names_list a).dropLast (Alias.attribute_name a) value

/-- `Alias.__delete__(owner)`: walk the traversal segments and delete the
terminal attribute on the reached object. -/
def Alias.delete {V : Type} (a : Alias) (owner : PyObj V) :
    Except PyErr (PyObj V) :=
  delAtPath owner (Alias.names_list a).dropLast (Alias.attribute_name a)

/-- The message of the error raised by `OperableProperty.__get__` on an
unset slot: the host message for the missing private key, with every
occurrence of the private key replaced by the public name. -/
def uninitMsg (name : String) : List Char :=
  pyReplace (OperableProperty.private_name name).data name.data
    (attrMsg (OperableProperty.private_name name))


/-!  Theorems.  Basic facts about the attribute-dictionary operations. -/

theorem lookupA_removeKey_self {β : Type} (st : List (String × β)) (k : String) :
    lookupA (removeKey st k) k = none := by
  induction st with
  | nil => simp [removeKey, lookupA]
  | cons hd tl ih =>
    by_cases h : hd.1 = k
    · simp [removeKey, h, ih]
    · simp [removeKey, h, lookupA, ih]

theorem getattrS_setattrS_same {V : Type} (st : Owner V) (k : String) (v : V) :
    getattrS (setattrS st k v) k = some v := by
  simp [setattrS, getattrS, lookupA]

/-- C2: for every `OperableProperty` bound with public name `name`, every
owner-instance dictionary and every value `v`, writing via
`OperableProperty.__set__` and then reading via `OperableProperty.__get__`
returns exactly `v`: `set` unconditionally writes the private slot and
`get` reads it back.  The value type `V` is arbitrary and the returned
value is equal to the one stored, which covers both the numeric
(value-equal) and non-numeric (identical object) readings. -/
theorem claim_C2 {V : Type} (name : String) (st : Owner V) (v : V) :
    OperableProperty.getOwned name (OperableProperty.set name st v) = .ok v := by
  simp [OperableProperty.getOwned, OperableProperty.set, getattrS_setattrS_same]

/-- C4: for every bound `Result` (declared name `name`), every owner
dictionary and every value, `Result.__set__` and `Result.__delete__`
always raise an `AttributeError` whose message starts with the attribute
name and states that it is the result of an operation and not
writable (respectively not deletable); neither ever returns successfully. -/
theorem claim_C4 {V : Type} (name : String) (owner : Owner V) (value : V) :
    Result.set name owner value =
      .error (.attrError
        (name.data ++ (" is the result of an operation and is not writable").data)
        none)
    ∧ Result.delete name owner =
      .error (.attrError
        (name.data ++ (" is the result of an operation and is not deletable").data)
        none)
    ∧ (∀ st2 : Owner V, Result.set name owner value ≠ .ok st2)
    ∧ (∀ st2 : Owner V, Result.delete name owner ≠ .ok st2) := by
  refine ⟨rfl, rfl, ?_, ?_⟩ <;> intro st2 h <;> exact Except.noConfusion h

/-- C6: `__get__` invoked without a concrete owner (class-level access,
`owner is None`) returns the descriptor object itself rather than a value,
for each of the three descriptor kinds: `OperableProperty`, `Result` and
`Alias`.  This is the branch that lets descriptors appear as operands of
expressions at class-definition time. -/
theorem claim_C6 {V : Type} :
    (∀ n : String, Desc.get (V := V) (.prop n) none = .ok (.desc (.prop n)))
    ∧ (∀ (op : List V → Option V) (vals : List (Operand V)),
        Desc.get (.result op vals) none = .ok (.desc (.result op vals)))
    ∧ (∀ a : Alias, Alias.get (V := V) a none = .ok (.inl a)) :=
  ⟨fun _ => rfl, fun _ _ => rfl, fun _ => rfl⟩

theorem resolveValues_eq_mapM {V : Type} (vals : List (Operand V)) (st : Owner V) :
    resolveValues vals st = vals.mapM (resolveOperand st) := by
  rw [← List.mapM'_eq_mapM]
  induction vals with
  | nil => simp [resolveValues, Pure.pure, Except.pure]
  | cons hd tl ih =>
    cases hd with
    | lit v =>
      cases htl : resolveValues tl st <;>
        simp [resolveValues, htl, resolveOperand, List.mapM'_cons, ← ih,
          Bind.bind, Except.bind, Pure.pure, Except.pure]
    | desc d =>
      cases hd2 : Desc.getOwned d st <;>
        cases htl : resolveValues tl st <;>
          simp [resolveValues, htl, hd2, resolveOperand, List.mapM'_cons, ← ih,
            Bind.bind, Except.bind, Pure.pure, Except.pure]

/-- C1: with a concrete owner, `Result.__get__` resolves each stored
operand in its original order against that same owner — recursively for
`OperableProperty`/`Result` operands, as a literal otherwise — and applies
the stored operation to the resolved list (first conjunct, stated via
`mapM` of the single-operand resolution).  Nothing is cached: the read is
a function of the owner's current slot dictionary, so after rebinding
`height` from `4` to `5` the same `area = width * height` descriptor
re-reads to the new product (remaining conjuncts). -/
theorem claim_C1 :
    (∀ (V : Type) (op : List V → Option V) (vals : List (Operand V)) (st : Owner V),
        Desc.getOwned (.result op vals) st =
          (vals.mapM (resolveOperand st)).bind (applyCall op))
    ∧ Desc.getOwned (Desc.opMul (.prop "width") (.desc (.prop "height")))
        [("_width", (3 : Int)), ("_height", 4)] = .ok 12
    ∧ Desc.getOwned (Desc.opMul (.prop "width") (.desc (.prop "height")))
        (OperableProperty.set "height" [("_width", (3 : Int)), ("_height", 4)] 5) =
        .ok 15 := by
  refine ⟨?_, ?_, ?_⟩
  · intro V op vals st
    rw [← resolveValues_eq_mapM]
    cases hr : resolveValues vals st <;>
      simp [Desc.getOwned, hr, applyCall, Except.bind]
  · simp [Desc.getOwned, Desc.opMul, resolveValues, OperableProperty.getOwned,
      OperableProperty.private_name, getattrS, lookupA, liftBin]
  · simp [Desc.getOwned, Desc.opMul, resolveValues, OperableProperty.getOwned,
      OperableProperty.private_name, OperableProperty.set, getattrS, setattrS,
      lookupA, removeKey, liftBin]

/-- C3: operand order is preserved exactly as composed.  For
`OperableProperty`s `a`, `b` holding `x`, `y` on the owner, the `Result`
built by `__sub__` (`a - b`) evaluates to `x - y`, and the `Result` built
by `__rsub__` with literal `5` (`5 - a`) evaluates to `5 - x`: reflected
construction applies `operation(other, prop)`, never the swapped order. -/
theorem claim_C3 (st : Owner Int) (x y : Int)
    (ha : getattrS st "_a" = some x) (hb : getattrS st "_b" = some y) :
    Desc.getOwned (Desc.opSub (.prop "a") (.desc (.prop "b"))) st = .ok (x - y)
    ∧ Desc.getOwned (Desc.opRSub (.prop "a") (.lit 5)) st = .ok (5 - x) := by
  constructor <;>
    simp [Desc.getOwned, Desc.opSub, Desc.opRSub, resolveValues,
      OperableProperty.getOwned, OperableProperty.private_name, ha, hb, liftBin]

/-- Witness for C3 at the concrete owner `{_a: 10, _b: 3}`. -/
theorem claim_C3_witness :
    Desc.getOwned (Desc.opSub (.prop "a") (.desc (.prop "b")))
      [("_a", (10 : Int)), ("_b", 3)] = .ok 7
    ∧ Desc.getOwned (Desc.opRSub (.prop "a") (.lit 5))
      [("_a", (10 : Int)), ("_b", 3)] = .ok (-5) := by
  have h := claim_C3 [("_a", (10 : Int)), ("_b", 3)] 10 3
    (by simp [getattrS, lookupA]) (by simp [getattrS, lookupA])
  norm_num at h
  exact h

mutual
theorem getSt_frame {V : Type} : ∀ (d : Desc V) (st : Owner V),
    (Desc.getSt d st).2 = st
  | .prop n, st => by simp [Desc.getSt]
  | .result op vals, st => by
    have h := resolveValuesSt_frame vals st
    cases hr : resolveValuesSt vals st with
    | mk r st2 =>
      rw [hr] at h
      cases r with
      | error e => simp [Desc.getSt, hr, h]
      | ok rs =>
        cases hop : op rs <;> simp [Desc.getSt, hr, hop, h]

theorem resolveValuesSt_frame {V : Type} : ∀ (vals : List (Operand V)) (st : Owner V),
    (resolveValuesSt vals st).2 = st
  | [], st => by simp [resolveValuesSt]
  | .lit v :: rest, st => by
    have h := resolveValuesSt_frame rest st
    cases hr : resolveValuesSt rest st with
    | mk r st2 =>
      rw [hr] at h
      cases r <;> simp [resolveValuesSt, hr, h]
  | .desc d :: rest, st => by
    have h1 := getSt_frame d st
    cases hd : Desc.getSt d st with
    | mk r1 st2 =>
      rw [hd] at h1
      simp at h1
      cases r1 with
      | error e => simp [resolveValuesSt, hd, h1]
      | ok x =>
        have h2 := resolveValuesSt_frame rest st2
        cases hr : resolveValuesSt rest st2 with
        | mk r2 st3 =>
          rw [hr] at h2
          simp at h2
          rw [h1] at hr h2
          cases r2 <;> simp [resolveValuesSt, hd, h1, hr, h2]
end

/-- C9: evaluating a `Result` never mutates the owner's state.  In the
evaluator with the owner's slot dictionary threaded through every host
attribute access (`Desc.getSt`), the dictionary coming out of a `Result`
read is exactly the dictionary that went in — every private slot of every
`OperableProperty` is unchanged.  The stored operations are pure functions
of the resolved operands, which is what the overload-built arithmetic
operations are. -/
theorem claim_C9 {V : Type} (op : List V → Option V) (vals : List (Operand V))
    (st : Owner V) : (Desc.getSt (.result op vals) st).2 = st :=
  getSt_frame (.result op vals) st

theorem pyReplace_self (nm rep : List Char) :
    pyReplace ('_' :: nm) rep ('_' :: nm) = rep := by
  have hpre : ('_' :: nm).isPrefixOf ('_' :: nm) = true := by
    simp [List.isPrefixOf_iff_prefix]
  simp [pyReplace, hpre, List.drop_length]

theorem pyReplace_skip (nm rep : List Char) :
    ∀ p : List Char, (∀ c ∈ p, c ≠ '_') →
      pyReplace ('_' :: nm) rep (p ++ ('_' :: nm)) = p ++ rep := by
  intro p
  induction p with
  | nil => intro _; simpa using pyReplace_self nm rep
  | cons c p2 ih =>
    intro h
    have hc : ('_' == c) = false :=
      beq_eq_false_iff_ne.mpr (Ne.symm (h c (by simp)))
    have hpre : ('_' :: nm).isPrefixOf (c :: (p2 ++ ('_' :: nm))) = false := by
      simp [List.isPrefixOf_cons₂, hc]
    have ih2 := ih (fun x hx => h x (by simp [hx]))
    simp [List.cons_append, pyReplace, hpre, ih2]

theorem no_occ_of_no_underscore (p nm : List Char) (hp : ∀ c ∈ p, c ≠ '_') :
    ¬ ∃ s t, p ++ nm = s ++ ('_' :: nm) ++ t := by
  rintro ⟨s, t, h⟩
  have hlen := congrArg List.length h
  simp [List.length_append] at hlen
  have hs : s.length < p.length := by omega
  have h1 : (p ++ nm)[s.length]? = p[s.length]? := List.getElem?_append_left hs
  rw [h] at h1
  rw [List.append_assoc, List.getElem?_append_right (Nat.le_refl _)] at h1
  simp at h1
  have hmem : '_' ∈ p := by
    obtain ⟨hlt, heq⟩ := List.getElem?_eq_some.mp h1.symm
    exact heq ▸ List.getElem_mem hlt
  exact hp '_' hmem rfl

theorem private_name_data (name : String) :
    (OperableProperty.private_name name).data = '_' :: name.data := by
  rw [OperableProperty.private_name, String.data_append]
  rfl

theorem uninitMsg_eq (name : String) :
    uninitMsg name = ("object has no attribute ").data ++ name.data := by
  rw [uninitMsg, attrMsg, private_name_data]
  exact pyReplace_skip name.data name.data _ (by decide)

/-- C5: reading an `OperableProperty` bound with public name `name` on an
owner whose private slot is unbound — before any write, or after delete
following a set — raises an attribute-not-found error carrying the
original host failure as its cause, whose message contains the public
`name` and never contains the private storage key
(`private_name = "_" + name`).  The last conjunct shows that delete after
set produces exactly such an unbound-slot state. -/
theorem claim_C5 {V : Type} (name : String) (st : Owner V)
    (h : getattrS st (OperableProperty.private_name name) = none) :
    OperableProperty.getOwned name st =
      .error (.attrError (uninitMsg name)
        (some (.attrError (attrMsg (OperableProperty.private_name name)) none)))
    ∧ (∃ s t, uninitMsg name = s ++ name.data ++ t)
    ∧ (¬ ∃ s t, uninitMsg name =
        s ++ (OperableProperty.private_name name).data ++ t)
    ∧ (∀ (st0 : Owner V) (v : V), ∃ st2,
        OperableProperty.delete name (OperableProperty.set name st0 v) = .ok st2
        ∧ getattrS st2 (OperableProperty.private_name name) = none) := by
  refine ⟨?_, ?_, ?_, ?_⟩
  · simp [OperableProperty.getOwned, h, uninitMsg]
  · exact ⟨("object has no attribute ").data, [], by simp [uninitMsg_eq]⟩
  · rw [uninitMsg_eq, private_name_data]
    exact no_occ_of_no_underscore _ name.data (by decide)
  · intro st0 v
    refine ⟨removeKey (OperableProperty.set name st0 v)
      (OperableProperty.private_name name), ?_, ?_⟩
    · simp [OperableProperty.delete, delattrS, OperableProperty.set,
        getattrS_setattrS_same]
    · simpa [getattrS] using lookupA_removeKey_self
        (OperableProperty.set name st0 v) (OperableProperty.private_name name)

/-- Witness for C5 at `name = "width"` on an empty owner dictionary. -/
theorem claim_C5_witness :
    OperableProperty.getOwned "width" ([] : Owner Int) =
      .error (.attrError (uninitMsg "width")
        (some (.attrError (attrMsg (OperableProperty.private_name "width"))
          none)))
    ∧ (∃ s t, uninitMsg "width" = s ++ "width".data ++ t) := by
  have h := claim_C5 (V := Int) "width" [] (by simp [getattrS, lookupA])
  exact ⟨h.1, h.2.1⟩

theorem setAtPath_walk {V : Type} :
    ∀ (p : List String) (o : PyObj V) (attrs : List (String × PyObj V))
      (k : String) (v : PyObj V),
      walkPath p o = .ok (.obj attrs) →
      ∃ o2, setAtPath o p k v = .ok o2
        ∧ walkPath p o2 = .ok (.obj ((k, v) :: removeKey attrs k))
  | [], o, attrs, k, v => by
    intro h
    simp [walkPath] at h
    subst h
    exact ⟨.obj ((k, v) :: removeKey attrs k), by simp [setAtPath, PyObj.setattrO],
      by simp [walkPath]⟩
  | n :: rest, o, attrs, k, v => by
    intro h
    rw [walkPath] at h
    cases hg : PyObj.getattrO o n with
    | error e => rw [hg] at h; exact absurd h (by simp)
    | ok child =>
      rw [hg] at h
      obtain ⟨c2, hs, hw⟩ := setAtPath_walk rest child attrs k v h
      cases o with
      | val x => exact absurd hg (by simp [PyObj.getattrO])
      | obj oat =>
        refine ⟨.obj ((n, c2) :: removeKey oat n), ?_, ?_⟩
        · simp [setAtPath, hg, hs, PyObj.setattrO]
        · simp [walkPath, PyObj.getattrO, lookupA, hw]

theorem delAtPath_walk {V : Type} :
    ∀ (p : List String) (o : PyObj V) (attrs : List (String × PyObj V))
      (k : String) (v0 : PyObj V),
      walkPath p o = .ok (.obj attrs) →
      lookupA attrs k = some v0 →
      ∃ o2, delAtPath o p k = .ok o2
        ∧ walkPath p o2 = .ok (.obj (removeKey attrs k))
  | [], o, attrs, k, v0 => by
    intro h hv
    simp [walkPath] at h
    subst h
    exact ⟨.obj (removeKey attrs k), by simp [delAtPath, PyObj.delattrO, hv],
      by simp [walkPath]⟩
  | n :: rest, o, attrs, k, v0 => by
    intro h hv
    rw [walkPath] at h
    cases hg : PyObj.getattrO o n with
    | error e => rw [hg] at h; exact absurd h (by simp)
    | ok child =>
      rw [hg] at h
      obtain ⟨c2, hs, hw⟩ := delAtPath_walk rest child attrs k v0 h hv
      cases o with
      | val x => exact absurd hg (by simp [PyObj.getattrO])
      | obj oat =>
        refine ⟨.obj ((n, c2) :: removeKey oat n), ?_, ?_⟩
        · simp [delAtPath, hg, hs, PyObj.setattrO]
        · simp [walkPath, PyObj.getattrO, lookupA, hw]

/-- C7: for an `Alias` and an owner on which every traversal segment of
the dotted path resolves to an object `{attrs}`: `__get__` returns the
terminal attribute of the reached object; `__set__` writes the terminal
attribute so that a subsequent `__get__` returns the written value; and
`__delete__` removes the terminal attribute from the reached object. -/
theorem claim_C7 {V : Type} (a : Alias) (owner : PyObj V)
    (attrs : List (String × PyObj V))
    (h : walkPath (Alias.names_list a).dropLast owner = .ok (.obj attrs)) :
    (∀ v, lookupA attrs (Alias.attribute_name a) = some v →
      Alias.getOwned a owner = .ok v)
    ∧ (∀ v, ∃ owner2, Alias.set a owner v = .ok owner2
        ∧ Alias.getOwned a owner2 = .ok v)
    ∧ (∀ v0, lookupA attrs (Alias.attribute_name a) = some v0 →
        ∃ owner3, Alias.delete a owner = .ok owner3
          ∧ walkPath (Alias.names_list a).dropLast owner3 =
              .ok (.obj (removeKey attrs (Alias.attribute_name a)))
          ∧ lookupA (removeKey attrs (Alias.attribute_name a))
              (Alias.attribute_name a) = none) := by
  refine ⟨?_, ?_, ?_⟩
  · intro v hv
    simp [Alias.getOwned, Alias.getLastObject, h, PyObj.getattrO, hv]
  · intro v
    obtain ⟨o2, hs, hw⟩ :=
      setAtPath_walk (Alias.names_list a).dropLast owner attrs
        (Alias.attribute_name a) v h
    refine ⟨o2, hs, ?_⟩
    simp [Alias.getOwned, Alias.getLastObject, hw, PyObj.getattrO, lookupA]
  · intro v0 hv
    obtain ⟨o2, hd, hw⟩ :=
      delAtPath_walk (Alias.names_list a).dropLast owner attrs
        (Alias.attribute_name a) v0 h hv
    exact ⟨o2, hd, hw, lookupA_removeKey_self attrs (Alias.attribute_name a)⟩

/-- Witness for C7 on the alias `"inner.value"` with
`owner.inner.value = 1`. -/
theorem claim_C7_witness :
    Alias.getOwned ⟨"inner.value"⟩
      (PyObj.obj [("inner", PyObj.obj [("value", PyObj.val (1 : Int))])]) =
      .ok (.val 1) :=
  (claim_C7 ⟨"inner.value"⟩
    (PyObj.obj [("inner", PyObj.obj [("value", PyObj.val (1 : Int))])])
    [("value", PyObj.val (1 : Int))] rfl).1 (.val 1) rfl

/-- C8 as stated is false: a traversal segment missing on the owner makes
`Alias.__get__` propagate the raw host error — `_get_last_object` runs
outside the try block — so the error carries neither the
`" (accessed from alias)"` note nor a cause.  Concretely, for alias
`"a.b"` on an owner with no attribute `a`. -/
theorem claim_C8_counterexample :
    Alias.getOwned ⟨"a.b"⟩ (PyObj.obj ([] : List (String × PyObj Int))) =
      .error (.attrError (attrMsg "a") none)
    ∧ ¬ ∃ s t, attrMsg "a" = s ++ (" (accessed from alias)").data ++ t := by
  constructor
  · rfl
  · rintro ⟨s, t, heq⟩
    have hmem : '(' ∈ attrMsg "a" := by
      rw [heq]
      have h2 : '(' ∈ (" (accessed from alias)").data := by decide
      simp [List.mem_append, h2]
    exact absurd hmem (by decide)

/-- C8 (amended): only the terminal attribute read of `Alias.__get__` is
annotated.  If the terminal read on the reached object fails, the error is
re-raised with the `" (accessed from alias)"` note appended and the
original failure as the cause; a failure while walking the traversal
segments propagates unchanged, without note or cause. -/
theorem claim_C8 {V : Type} (a : Alias) (owner : PyObj V) :
    (∀ e, Alias.getLastObject a owner = .error e →
      Alias.getOwned a owner = .error e)
    ∧ (∀ (obj : PyObj V) m c, Alias.getLastObject a owner = .ok obj →
        PyObj.getattrO obj (Alias.attribute_name a) = .error (.attrError m c) →
        Alias.getOwned a owner =
          .error (.attrError (m ++ (" (accessed from alias)").data)
            (some (.attrError m c)))) := by
  constructor
  · intro e he
    simp [Alias.getOwned, he]
  · intro obj m c hobj hterm
    simp [Alias.getOwned, hobj, hterm]

/-- Witness for the amended C8: alias `"inner.gone"` where `owner.inner`
exists but has no attribute `gone` — the error is annotated and keeps the
original failure as cause. -/
theorem claim_C8_witness :
    Alias.getOwned ⟨"inner.gone"⟩
      (PyObj.obj [("inner", PyObj.obj ([] : List (String × PyObj Int)))]) =
      .error (.attrError (attrMsg "gone" ++ (" (accessed from alias)").data)
        (some (.attrError (attrMsg "gone") none))) :=
  (claim_C8 ⟨"inner.gone"⟩
    (PyObj.obj [("inner", PyObj.obj ([] : List (String × PyObj Int)))])).2
    (.obj []) (attrMsg "gone") none rfl rfl

theorem pySplitChars_ne (sep : Char) :
    ∀ l : List Char, (∀ c ∈ l, c ≠ sep) → pySplitChars sep l = [l] := by
  intro l
  induction l with
  | nil => intro _; rfl
  | cons c rest ih =>
    intro h
    have hc : c ≠ sep := h c (by simp)
    rw [pySplitChars, ih (fun x hx => h x (by simp [hx]))]
    simp [hc]

theorem names_list_single (s : String) (h : ∀ c ∈ s.data, c ≠ '.') :
    Alias.names_list ⟨s⟩ = [s] := by
  cases s with
  | mk d =>
    rw [Alias.names_list, pySplit, pySplitChars_ne ('.') _ h]
    rfl

/-- C10: for an `Alias` built from a path with no dot, the traversal list
is empty, so the walk returns the owner itself and get/set/delete operate
directly on that single named attribute of the owner. -/
theorem claim_C10 {V : Type} (s : String) (h : ∀ c ∈ s.data, c ≠ '.')
    (owner : PyObj V) :
    Alias.names_list ⟨s⟩ = [s]
    ∧ (Alias.names_list ⟨s⟩).dropLast = []
    ∧ Alias.getLastObject ⟨s⟩ owner = .ok owner
    ∧ (∀ v, PyObj.getattrO owner s = .ok v → Alias.getOwned ⟨s⟩ owner = .ok v)
    ∧ (∀ v, Alias.set ⟨s⟩ owner v = PyObj.setattrO owner s v)
    ∧ Alias.delete ⟨s⟩ owner = PyObj.delattrO owner s := by
  have hn := names_list_single s h
  have ha : Alias.attribute_name ⟨s⟩ = s := by
    rw [Alias.attribute_name, hn]
    rfl
  refine ⟨hn, by simp [hn], ?_, ?_, ?_, ?_⟩
  · simp [Alias.getLastObject, hn, walkPath]
  · intro v hv
    simp [Alias.getOwned, Alias.getLastObject, hn, ha, walkPath, hv]
  · intro v
    simp [Alias.set, hn, ha, setAtPath]
  · simp [Alias.delete, hn, ha, delAtPath]

/-- Witness for C10: the dotless alias `"x"` forwards directly to the
owner's own attribute `x`. -/
theorem claim_C10_witness :
    Alias.names_list ⟨"x"⟩ = ["x"]
    ∧ Alias.getOwned ⟨"x"⟩ (PyObj.obj [("x", PyObj.val (0 : Int))]) =
        .ok (.val 0) := by
  have h := claim_C10 (V := Int) "x" (by decide)
    (PyObj.obj [("x", PyObj.val 0)])
  exact ⟨h.1, h.2.2.2.1 (.val 0) rfl⟩

/-- Witness for C4 at the bound name `"area"` on an empty owner. -/
theorem claim_C4_witness :
    Result.set "area" ([] : Owner Int) 99 =
      .error (.attrError
        (("area").data ++
          (" is the result of an operation and is not writable").data)
        none)
    ∧ Result.delete "area" ([] : Owner Int) =
      .error (.attrError
        (("area").data ++
          (" is the result of an operation and is not deletable").data)
        none) :=
  ⟨(claim_C4 "area" ([] : Owner Int) 99).1, (claim_C4 "area" ([] : Owner Int) 99).2.1⟩
